import Mathlib

/-!
Verification of the charge_manager blend-optimization core.

This file embeds the data model and the operations of the repository's
Python sources (`eaf_charge_gekko.py`, `calculo_carga_eaf.py`, `reports.py`,
`charge_gekko_example.py`, `charge_engine.py`) as executable Lean
definitions over exact rationals, and proves or refutes the frozen claims
about them.

Modelling conventions:
- Python floats become `ℚ` (the formulas under study use only field
  operations, so exact arithmetic captures their intent).
- A Python chemistry dict whose values may be `None` becomes an
  association list `List (String × Option ℚ)`; `d.get(e, 0)` becomes
  `dictGetD`, which returns the stored value (possibly `Option.none`,
  i.e. Python `None`) or the default `0` when the key is absent.
- Code that can raise (`KeyError`, `ZeroDivisionError`, solver
  exceptions) is embedded as `Option`-returning functions, `Option.none`
  marking the raise.
- The GEKKO model's `m.Equation(...)` calls are embedded as explicit
  lists of `Constr` values (a comparison direction, a left-hand side as a
  function of the assignment vector, and a constant right-hand side), so
  that "exactly these constraints are generated" is provable, not just
  "these constraints are implied".
-/

/-- Association list from element symbol to a chemistry value as stored in
the YAML configuration: a percent number, or Python `None`. -/
abbrev ChemDict := List (String × Option ℚ)

/-- Embedding of `normalize_chemistry_value` from `eaf_charge_gekko.py`
(lines 9-18) and `calculo_carga_eaf.py` (lines 59-68): `None` maps to `0.0`,
any number is divided by `100` (percent to weight fraction). -/
def normalize_chemistry_value : Option ℚ → ℚ
  | Option.none => 0
  | Option.some v => v / 100

/-- Embedding of the Python expression `d.get(e, 0)` on a chemistry dict:
the stored value when the key is present (which may itself be `None`),
otherwise the default `0`. -/
def dictGetD (d : ChemDict) (e : String) : Option ℚ :=
  match d.find? (fun p => p.1 == e) with
  | Option.some p => p.2
  | Option.none => Option.some 0

/-- The chemistry value a builder actually uses for element `e` of a
chemistry dict: `normalize_chemistry_value(d.get(e, 0))`. -/
def chemVal (d : ChemDict) (e : String) : ℚ :=
  normalize_chemistry_value (dictGetD d e)

/-- Keys of a chemistry dict, in order (`list(d.keys())`). -/
def dictKeys (d : ChemDict) : List String := d.map (fun p => p.1)

/-- One material of the catalog, with the fields the model builders read:
`cost`, `stock`, and the `chemistry` `min`/`max` dicts (percent scale,
possibly partial, possibly `None`-valued). -/
structure Material where
  cost : ℚ
  stock : ℚ
  chemMin : ChemDict
  chemMax : ChemDict

/-- The weighted chemistry sum `sum(x[i] * normalize_chemistry_value(
materials_data[materials[i]]['chemistry'][bound].get(e, 0)) for i in
range(len(materials)))` shared by both builders and by
`calculate_chemistry_solution`. -/
def weightedChemSum (mats : List Material) (xs : List ℚ) (sel : Material → ChemDict) (e : String) : ℚ :=
  ((mats.zip xs).map (fun p => p.2 * chemVal (sel p.1) e)).sum

/-- The `min_mix` expression of `create_optimization_model`
(`eaf_charge_gekko.py` line 168) and `crear_modelelo`
(`calculo_carga_eaf.py` line 156). -/
def low_mix (mats : List Material) (xs : List ℚ) (e : String) (hw : ℚ) : ℚ :=
  weightedChemSum mats xs Material.chemMin e / hw

/-- The `max_mix` expression of `create_optimization_model`
(`eaf_charge_gekko.py` line 169) and `crear_modelelo`
(`calculo_carga_eaf.py` line 157). -/
def high_mix (mats : List Material) (xs : List ℚ) (e : String) (hw : ℚ) : ℚ :=
  weightedChemSum mats xs Material.chemMax e / hw

/-- One emitted `m.Equation(...)`: `isGe = true` renders `lhs xs ≥ rhs`,
`isGe = false` renders `lhs xs ≤ rhs`. -/
structure Constr where
  isGe : Bool
  lhs : List ℚ → ℚ
  rhs : ℚ

/-- Satisfaction of one emitted equation by an assignment vector. -/
def Constr.sat (c : Constr) (xs : List ℚ) : Prop :=
  if c.isGe then c.rhs ≤ c.lhs xs else c.lhs xs ≤ c.rhs

/-! ## Percent parsing (claim C9) -/

/-- A per-material fraction bound as found in the configuration: either a
bare number or a percent-string such as `"5%"` (represented by its numeric
payload). -/
inductive ConfigVal where
  | num (q : ℚ)
  | percentStr (q : ℚ)

/-- Embedding of the builders' parse
`float(str(v).replace('%', '')) / 100` (`eaf_charge_gekko.py` lines
143-144, `calculo_carga_eaf.py` lines 130-131, `charge_gekko_example.py`
lines 20-21): `str` renders either form to its digits, so both are divided
by 100. -/
def builderParseFraction : ConfigVal → ℚ
  | ConfigVal.num q => q / 100
  | ConfigVal.percentStr q => q / 100

/-- Embedding of the reporter's per-unit-mass factor for the same bound
(`reports.py` lines 66-75): a string containing `'%'` is divided by 100,
but a bare number is used as-is (`float(min_raw)`). -/
def reporterFractionFactor : ConfigVal → ℚ
  | ConfigVal.num q => q
  | ConfigVal.percentStr q => q / 100

/-! ## Solve step (claim C4) -/

/-- Outcome of the external `m.solve(disp=False)` call: it either completes
(GEKKO reports an optimal solution) or raises an exception (GEKKO signals
infeasibility and other solver failures by raising). In both cases the
variable objects `x` hold the solver's last internal iterate. -/
inductive SolveOutcome where
  | completed
  | raised

/-- Embedding of `solve_optimization` (`eaf_charge_gekko.py` lines
185-202) and the solve step of `calcular_carga` (`calculo_carga_eaf.py`
lines 184-194): the `try/except` returns `(True, x)` on completion and
`(False, x)` when the solver raised, never propagating the exception. -/
def solve_optimization : SolveOutcome → List ℚ → Bool × List ℚ
  | SolveOutcome.completed, x => (true, x)
  | SolveOutcome.raised, x => (false, x)

/-! ## Theorems for claims C4, C9, C10 -/

/-- C4: for every solver outcome and every last iterate, the solve step
returns a `(status, assignment)` pair — status `true` exactly when the
solver completed, the assignment always being the solver's last iterate —
so infeasibility (a raised solver exception) is a result state, never a
thrown exception: the embedding is a total function. -/
theorem solve_step_never_raises (o : SolveOutcome) (x : List ℚ) :
    (solve_optimization o x).2 = x ∧
    ((solve_optimization o x).1 = true ↔ o = SolveOutcome.completed) := by
  cases o <;> simp [solve_optimization]

/-- C9 counterexample: the bare number `5` is parsed as the fraction
`1/20` by the builders but as `5` by the reporter's materials table, so the
0-100 percent-scale normalization is not applied consistently in builders
and reporter alike. -/
theorem percent_parse_inconsistent_cex :
    builderParseFraction (ConfigVal.num 5) = 1/20 ∧
    reporterFractionFactor (ConfigVal.num 5) = 5 ∧
    builderParseFraction (ConfigVal.num 5) ≠ reporterFractionFactor (ConfigVal.num 5) := by
  refine ⟨by norm_num [builderParseFraction], rfl, ?_⟩
  norm_num [builderParseFraction, reporterFractionFactor]

/-- C9 amended: percent-strings such as `"5%"` are interpreted on the
0-100 scale and normalized to 0-1 fractions consistently by the builders
and the reporter; bare numbers are normalized (divided by 100) by the
builders but are used unchanged by the reporter's materials table. -/
theorem percent_parse_amended (q : ℚ) :
    builderParseFraction (ConfigVal.percentStr q) = q / 100 ∧
    reporterFractionFactor (ConfigVal.percentStr q) = q / 100 ∧
    builderParseFraction (ConfigVal.num q) = q / 100 ∧
    reporterFractionFactor (ConfigVal.num q) = q :=
  ⟨rfl, rfl, rfl, rfl⟩

/-- C10: when a material's chemistry dict omits element `e`, or maps it to
Python `None`, the chemistry value the builders and the evaluator use for
that element is `0`, so the material's weighted contribution `x * chemVal`
is `0` and model construction is total over partial chemistry dicts. -/
theorem missing_chemistry_contributes_zero (chem : ChemDict) (e : String)
    (h : chem.find? (fun p => p.1 == e) = Option.none ∨
      ∃ p, chem.find? (fun p => p.1 == e) = Option.some p ∧ p.2 = Option.none) :
    chemVal chem e = 0 ∧ ∀ q : ℚ, q * chemVal chem e = 0 := by
  have hz : chemVal chem e = 0 := by
    rcases h with h | ⟨p, hp, hnone⟩
    · simp [chemVal, dictGetD, h, normalize_chemistry_value]
    · simp [chemVal, dictGetD, hp, hnone, normalize_chemistry_value]
  exact ⟨hz, fun q => by rw [hz, mul_zero]⟩

/-- C10 witness: the one-entry dict mapping `"C"` to `None` yields
chemistry value `0` for `"C"`. -/
theorem missing_chemistry_contributes_zero_witness :
    chemVal [("C", Option.none)] "C" = 0 ∧ ∀ q : ℚ, q * chemVal [("C", Option.none)] "C" = 0 :=
  missing_chemistry_contributes_zero [("C", Option.none)] "C"
    (Or.inr ⟨("C", Option.none), by decide, rfl⟩)

/-! ## Charge-design chemistry constraints (claim C1) -/

/-- The four `m.Equation` calls emitted for one element `e` by
`create_optimization_model` (`eaf_charge_gekko.py` lines 167-173) and by
`crear_modelelo` (`calculo_carga_eaf.py` lines 154-161), in source order:
`min_mix >= min(e)`, `min_mix <= max(e)`, `max_mix >= min(e)`,
`max_mix <= max(e)`, all bounds normalized from percent. -/
def chargeChemEqsFor (mats : List Material) (cmin cmax : ChemDict) (hw : ℚ) (e : String) : List Constr :=
  [ ⟨true, fun xs => low_mix mats xs e hw, chemVal cmin e⟩,
    ⟨false, fun xs => low_mix mats xs e hw, chemVal cmax e⟩,
    ⟨true, fun xs => high_mix mats xs e hw, chemVal cmin e⟩,
    ⟨false, fun xs => high_mix mats xs e hw, chemVal cmax e⟩ ]

/-- All chemistry equations of the charge-design model: the loop
`for e in elements` over the keys of the target `min` dict. -/
def chargeChemEqs (mats : List Material) (cmin cmax : ChemDict) (hw : ℚ) : List Constr :=
  (dictKeys cmin).flatMap (fun e => chargeChemEqsFor mats cmin cmax hw e)

/-- The spec's chemistry-range requirement for one element, stated in the
spec's own words: both interval endpoints of the mix lie inside the target
range, `bmin ≤ low ≤ bmax` and `bmin ≤ high ≤ bmax`. -/
def specChargeChemOK (bmin bmax lowm highm : ℚ) : Prop :=
  bmin ≤ lowm ∧ lowm ≤ bmax ∧ bmin ≤ highm ∧ highm ≤ bmax

/-- C1: for every element listed in the target bounds, the charge-design
builder emits exactly four chemistry constraints for that element, they are
part of the built problem, and an assignment satisfies them iff both the
low-mix and the high-mix endpoints lie within the normalized target range,
exactly as the spec states. -/
theorem charge_chem_constraints_exact (mats : List Material) (cmin cmax : ChemDict)
    (hw : ℚ) (e : String) (xs : List ℚ) (h : e ∈ dictKeys cmin) :
    (chargeChemEqsFor mats cmin cmax hw e).length = 4 ∧
    (∀ c ∈ chargeChemEqsFor mats cmin cmax hw e, c ∈ chargeChemEqs mats cmin cmax hw) ∧
    ((∀ c ∈ chargeChemEqsFor mats cmin cmax hw e, c.sat xs) ↔
      specChargeChemOK (chemVal cmin e) (chemVal cmax e)
        (low_mix mats xs e hw) (high_mix mats xs e hw)) := by
  refine ⟨rfl, ?_, ?_⟩
  · intro c hc
    exact List.mem_flatMap.mpr ⟨e, h, hc⟩
  · simp only [chargeChemEqsFor, List.mem_cons, List.not_mem_nil, or_false,
      specChargeChemOK, Constr.sat]
    constructor
    · intro hall
      refine ⟨hall _ (Or.inl rfl), hall _ (Or.inr (Or.inl rfl)),
        hall _ (Or.inr (Or.inr (Or.inl rfl))), hall _ (Or.inr (Or.inr (Or.inr rfl)))⟩
    · rintro ⟨h1, h2, h3, h4⟩ c (rfl | rfl | rfl | rfl) <;> simpa

/-- C1 witness: a concrete instantiation (one target element `"C"` with
bounds 1%-2%, empty catalog, empty assignment) at which the hypothesis
holds and the four-constraint characterization is realized. -/
theorem charge_chem_constraints_exact_witness :
    "C" ∈ dictKeys [("C", Option.some 1), ("Mn", Option.some 3)] ∧
    ((chargeChemEqsFor [] [("C", Option.some 1), ("Mn", Option.some 3)] [("C", Option.some 2)] 1 "C").length = 4 ∧
    (∀ c ∈ chargeChemEqsFor [] [("C", Option.some 1), ("Mn", Option.some 3)] [("C", Option.some 2)] 1 "C",
      c ∈ chargeChemEqs [] [("C", Option.some 1), ("Mn", Option.some 3)] [("C", Option.some 2)] 1) ∧
    ((∀ c ∈ chargeChemEqsFor [] [("C", Option.some 1), ("Mn", Option.some 3)] [("C", Option.some 2)] 1 "C", c.sat []) ↔
      specChargeChemOK (chemVal [("C", Option.some 1), ("Mn", Option.some 3)] "C")
        (chemVal [("C", Option.some 2)] "C") (low_mix [] [] "C" 1) (high_mix [] [] "C" 1))) :=
  ⟨by decide, charge_chem_constraints_exact [] _ _ 1 "C" [] (by decide)⟩

/-! ## Addition-model chemistry constraints (claim C2) -/

/-- Measured chemistry of the current heat: `colada_quimica.get(e, 0)`
(`calculo_carga_eaf.py` lines 39-40); the measured value is used as
supplied, with no further normalization. -/
def coladaGet (colada : List (String × ℚ)) (e : String) : ℚ :=
  match colada.find? (fun p => p.1 == e) with
  | Option.some p => p.2
  | Option.none => 0

/-- The addition model's `min_mix` for element `e`
(`calculo_carga_eaf.py` line 39): measured chemistry times current weight,
plus the weighted low-chemistry sum of the additions, over the total
weight `colada_peso + sum(x)`. -/
def add_low_mix (mats : List Material) (colada : List (String × ℚ)) (peso : ℚ)
    (e : String) (xs : List ℚ) : ℚ :=
  (coladaGet colada e * peso + weightedChemSum mats xs Material.chemMin e) / (peso + xs.sum)

/-- The addition model's `max_mix` for element `e`
(`calculo_carga_eaf.py` line 40). -/
def add_high_mix (mats : List Material) (colada : List (String × ℚ)) (peso : ℚ)
    (e : String) (xs : List ℚ) : ℚ :=
  (coladaGet colada e * peso + weightedChemSum mats xs Material.chemMax e) / (peso + xs.sum)

/-- The two `m.Equation` calls emitted for one element `e` by
`calcular_adicion_optima` (`calculo_carga_eaf.py` lines 42-43), in source
order: `max_mix <= max(e)` then `min_mix >= min(e)`; the opposite-direction
constraints of lines 46-47 are commented out in the source. -/
def addChemEqsFor (mats : List Material) (amin amax : ChemDict)
    (colada : List (String × ℚ)) (peso : ℚ) (e : String) : List Constr :=
  [ ⟨false, add_high_mix mats colada peso e, chemVal amax e⟩,
    ⟨true, add_low_mix mats colada peso e, chemVal amin e⟩ ]

/-- All chemistry equations of the addition model: the loop
`for e in elements` over the keys of the target `min` dict. -/
def addChemEqs (mats : List Material) (amin amax : ChemDict)
    (colada : List (String × ℚ)) (peso : ℚ) : List Constr :=
  (dictKeys amin).flatMap (fun e => addChemEqsFor mats amin amax colada peso e)

/-- The spec's addition-scenario requirement for one element, in the
spec's own words: only the tightening directions,
`low ≥ bmin` and `high ≤ bmax`. -/
def specAddChemOK (bmin bmax lowm highm : ℚ) : Prop :=
  bmin ≤ lowm ∧ highm ≤ bmax

/-- C2: for every element listed in the target bounds, the addition
builder emits exactly two chemistry constraints for that element, they are
part of the built problem, and an assignment satisfies them iff
`low_mix(e) ≥ min(e)` and `high_mix(e) ≤ max(e)` — only the
tightening directions, no opposite-direction constraints. -/
theorem addition_chem_constraints_exact (mats : List Material) (amin amax : ChemDict)
    (colada : List (String × ℚ)) (peso : ℚ) (e : String) (xs : List ℚ)
    (h : e ∈ dictKeys amin) :
    (addChemEqsFor mats amin amax colada peso e).length = 2 ∧
    (∀ c ∈ addChemEqsFor mats amin amax colada peso e, c ∈ addChemEqs mats amin amax colada peso) ∧
    ((∀ c ∈ addChemEqsFor mats amin amax colada peso e, c.sat xs) ↔
      specAddChemOK (chemVal amin e) (chemVal amax e)
        (add_low_mix mats colada peso e xs) (add_high_mix mats colada peso e xs)) := by
  refine ⟨rfl, ?_, ?_⟩
  · intro c hc
    exact List.mem_flatMap.mpr ⟨e, h, hc⟩
  · simp only [addChemEqsFor, List.mem_cons, List.not_mem_nil, or_false,
      specAddChemOK, Constr.sat]
    constructor
    · intro hall
      exact ⟨hall _ (Or.inr rfl), hall _ (Or.inl rfl)⟩
    · rintro ⟨h1, h2⟩ c (rfl | rfl) <;> simpa

/-- C2 witness: a concrete instantiation (one target element `"C"`, empty
catalog, empty addition) at which the hypothesis holds and the
two-constraint characterization is realized. -/
theorem addition_chem_constraints_exact_witness :
    "C" ∈ dictKeys [("C", Option.some 40)] ∧
    ((addChemEqsFor [] [("C", Option.some 40)] [("C", Option.some 60)] [("C", 1/2)] 100 "C").length = 2 ∧
    (∀ c ∈ addChemEqsFor [] [("C", Option.some 40)] [("C", Option.some 60)] [("C", 1/2)] 100 "C",
      c ∈ addChemEqs [] [("C", Option.some 40)] [("C", Option.some 60)] [("C", 1/2)] 100) ∧
    ((∀ c ∈ addChemEqsFor [] [("C", Option.some 40)] [("C", Option.some 60)] [("C", 1/2)] 100 "C", c.sat []) ↔
      specAddChemOK (chemVal [("C", Option.some 40)] "C") (chemVal [("C", Option.some 60)] "C")
        (add_low_mix [] [("C", 1/2)] 100 "C" []) (add_high_mix [] [("C", 1/2)] 100 "C" []))) :=
  ⟨by decide, addition_chem_constraints_exact [] _ _ _ 100 "C" [] (by decide)⟩

/-! ## Compliance classification (claim C5) -/

/-- The fixed absolute tolerance of the compliance check
(`eaf_charge_gekko.py` line 289, `reports.py` line 100). -/
def chemTolerance : ℚ := 1/1000000

/-- Embedding of the per-element status computation of
`print_chemistry_table` (`eaf_charge_gekko.py` lines 284-293): the spec
bounds are normalized from percent to fraction, the estimated mix
endpoints are already on the fraction scale, and the element is `"OK"`
when `est_min >= min_spec - 1e-6` and `est_max <= max_spec + 1e-6`,
else `"Out"`. -/
def classifyStatus (minSpec maxSpec : Option ℚ) (estMin estMax : ℚ) : String :=
  if normalize_chemistry_value minSpec - chemTolerance ≤ estMin ∧
      estMax ≤ normalize_chemistry_value maxSpec + chemTolerance
  then "OK" else "Out"

/-- The spec's notion of one endpoint lying within the target range
inclusive of the `1e-6` absolute tolerance on the weight-fraction scale. -/
def withinSpecTol (minSpec maxSpec : Option ℚ) (v : ℚ) : Prop :=
  normalize_chemistry_value minSpec - chemTolerance ≤ v ∧
    v ≤ normalize_chemistry_value maxSpec + chemTolerance

/-- C5: for estimated interval endpoints (`est_min ≤ est_max`), the
compliance evaluator classifies the element `"OK"` exactly when both
endpoints lie within `[spec_min, spec_max]` inclusive of the absolute
`1e-6` tolerance on the weight-fraction scale, and `"Out"` otherwise. -/
theorem classify_ok_iff_endpoints_within (minSpec maxSpec : Option ℚ)
    (estMin estMax : ℚ) (h : estMin ≤ estMax) :
    classifyStatus minSpec maxSpec estMin estMax = "OK" ↔
      (withinSpecTol minSpec maxSpec estMin ∧ withinSpecTol minSpec maxSpec estMax) := by
  unfold classifyStatus withinSpecTol
  split
  · rename_i hc
    simp only [true_iff]
    exact ⟨⟨hc.1, le_trans h hc.2⟩, ⟨le_trans hc.1 h, hc.2⟩⟩
  · rename_i hc
    simp only [false_iff, String.reduceEq]
    intro hw
    exact hc ⟨hw.1.1, hw.2.2⟩

/-- C5 witness: estimated endpoints 1% and 2% against a 1%-3% spec are
classified `"OK"` and both lie within the tolerance-widened range. -/
theorem classify_ok_iff_endpoints_within_witness :
    (1/100 : ℚ) ≤ 2/100 ∧
    (classifyStatus (Option.some 1) (Option.some 3) (1/100) (2/100) = "OK" ↔
      (withinSpecTol (Option.some 1) (Option.some 3) (1/100) ∧
        withinSpecTol (Option.some 1) (Option.some 3) (2/100))) :=
  ⟨by norm_num, classify_ok_iff_endpoints_within (Option.some 1) (Option.some 3) _ _ (by norm_num)⟩

/-! ## Seeding heuristic (claims C7, C8) -/

/-- The hard-coded nominal charge recipe of `calc_initial_solution`
(`eaf_charge_gekko.py` lines 51-57): 20% first-grade iron, 35% returns,
44% scrap, 0% carbon, 0% FeSi75. -/
def nominalComposition : List (String × ℚ) :=
  [("fierro_Primera", 1/5), ("Retornos_CM", 7/20), ("chatarra_CM", 11/25),
   ("carbon", 0), ("FeSi75", 0)]

/-- The nominal fraction looked up for one catalog material: the recipe
entry when the material is in the recipe, `0` otherwise
(`eaf_charge_gekko.py` lines 61-67). -/
def nominalFrac (mname : String) : ℚ :=
  match nominalComposition.find? (fun p => p.1 == mname) with
  | Option.some p => p.2
  | Option.none => 0

/-- Embedding of `calc_initial_solution` (`eaf_charge_gekko.py` lines
32-72; `solucion_inicial` of `calculo_carga_eaf.py` lines 82-112 is the
same computation with the two zero-fraction recipe entries dropped):
start from `nominal_fraction * heat_weight` per material, then rescale by
`heat_weight / total`. When the pre-rescale total is zero the Python code
raises `ZeroDivisionError` at line 71, embedded as `Option.none`. -/
def calc_initial_solution (materials : List String) (heat_weight : ℚ) : Option (List ℚ) :=
  let initial := materials.map (fun mname => nominalFrac mname * heat_weight)
  let total := initial.sum
  if total = 0 then Option.none
  else Option.some (initial.map (fun v => v * (heat_weight / total)))

/-- C7 counterexample: the catalog `["carbon"]` shares the material
`"carbon"` with the nominal recipe, yet the seeding heuristic fails (the
recipe fraction of carbon is `0`, so the rescale divides by zero) instead
of returning a seed vector of total mass `100`. -/
theorem seed_shared_material_cex :
    "carbon" ∈ nominalComposition.map (fun p => p.1) ∧
    calc_initial_solution ["carbon"] 100 = Option.none := by
  constructor
  · decide
  · simp [calc_initial_solution, nominalFrac, nominalComposition]

/-- Helper: a constant factor distributes out of a list sum. -/
theorem list_sum_map_mul_const (l : List ℚ) (c : ℚ) :
    (l.map (fun v => v * c)).sum = l.sum * c := by
  induction l with
  | nil => simp
  | cons a t ih => simp [ih, add_mul]

/-- C7 amended: for every nonzero `target_weight` and every catalog whose
materials cover a nonzero total nominal fraction (at least one recipe
material with a positive recipe entry), the heuristic returns the vector
of entries `nominal_fraction * target_weight` rescaled by
`target_weight / sum(initial_mass)`; materials outside the recipe get
nominal fraction `0`, and the returned total mass equals `target_weight`
exactly. -/
theorem calc_initial_solution_amended (materials : List String) (hw : ℚ)
    (hhw : hw ≠ 0) (hfrac : (materials.map nominalFrac).sum ≠ 0) :
    calc_initial_solution materials hw =
      Option.some ((materials.map (fun mname => nominalFrac mname * hw)).map
        (fun v => v * (hw / (materials.map (fun mname => nominalFrac mname * hw)).sum))) ∧
    (∀ mname, nominalComposition.find? (fun p => p.1 == mname) = Option.none →
      nominalFrac mname = 0) ∧
    ∀ ys, calc_initial_solution materials hw = Option.some ys → ys.sum = hw := by
  have htot : (materials.map (fun mname => nominalFrac mname * hw)).sum =
      (materials.map nominalFrac).sum * hw := List.sum_map_mul_right materials nominalFrac hw
  have htne : (materials.map (fun mname => nominalFrac mname * hw)).sum ≠ 0 := by
    rw [htot]
    exact mul_ne_zero hfrac hhw
  refine ⟨?_, ?_, ?_⟩
  · simp only [calc_initial_solution, if_neg htne]
  · intro mname hnone
    simp [nominalFrac, hnone]
  · intro ys hys
    simp only [calc_initial_solution, if_neg htne, Option.some.injEq] at hys
    subst hys
    rw [list_sum_map_mul_const, mul_comm]
    exact div_mul_cancel₀ hw htne

/-- C7 amended witness: the catalog `["fierro_Primera", "X"]` with target
weight `100` satisfies the hypotheses, and the heuristic returns the
rescaled seed of total mass `100`. -/
theorem calc_initial_solution_amended_witness :
    (100 : ℚ) ≠ 0 ∧ ((["fierro_Primera", "X"].map nominalFrac).sum ≠ 0) ∧
    (calc_initial_solution ["fierro_Primera", "X"] 100 =
      Option.some ((["fierro_Primera", "X"].map (fun mname => nominalFrac mname * 100)).map
        (fun v => v * (100 / (["fierro_Primera", "X"].map (fun mname => nominalFrac mname * 100)).sum))) ∧
    (∀ mname, nominalComposition.find? (fun p => p.1 == mname) = Option.none →
      nominalFrac mname = 0) ∧
    ∀ ys, calc_initial_solution ["fierro_Primera", "X"] 100 = Option.some ys → ys.sum = 100) :=
  ⟨by norm_num,
    by
      norm_num [show nominalFrac "fierro_Primera" = 1/5 from rfl,
        show nominalFrac "X" = 0 from rfl],
    calc_initial_solution_amended ["fierro_Primera", "X"] 100 (by norm_num)
      (by
        norm_num [show nominalFrac "fierro_Primera" = 1/5 from rfl,
          show nominalFrac "X" = 0 from rfl])⟩

/-- C8: when the nominal recipe covers none of the catalog's materials,
the seeding heuristic fails (the rescale divides by zero — the
`EmptySeedError` of the spec) and returns no seed vector. -/
theorem seed_empty_recipe_fails (materials : List String) (hw : ℚ)
    (h : ∀ mname ∈ materials, nominalComposition.find? (fun p => p.1 == mname) = Option.none) :
    calc_initial_solution materials hw = Option.none := by
  have hz : (materials.map (fun mname => nominalFrac mname * hw)).sum = 0 := by
    apply List.sum_eq_zero
    intro v hv
    rcases List.mem_map.mp hv with ⟨mname, hm, rfl⟩
    simp [nominalFrac, h mname hm]
  simp only [calc_initial_solution, if_pos hz]

/-- C8 witness: a catalog of two materials unknown to the recipe makes the
heuristic fail at target weight `20000`. -/
theorem seed_empty_recipe_fails_witness :
    (∀ mname ∈ ["X", "Y"], nominalComposition.find? (fun p => p.1 == mname) = Option.none) ∧
    calc_initial_solution ["X", "Y"] 20000 = Option.none :=
  ⟨by decide, seed_empty_recipe_fails ["X", "Y"] 20000 (by decide)⟩

/-! ## Addition-scenario optimality (claim C3) -/

/-- The all-zero addition vector, one entry per catalog material. -/
def zeroAdd (mats : List Material) : List ℚ := List.replicate mats.length 0

/-- Feasibility of an addition vector for the model built by
`calcular_adicion_optima` (`calculo_carga_eaf.py` lines 28-47): the
variable bounds `lb=0, ub=stock[i]` of line 31, and every emitted
chemistry equation of lines 42-43. -/
def addFeasible (mats : List Material) (amin amax : ChemDict)
    (colada : List (String × ℚ)) (peso : ℚ) (xs : List ℚ) : Prop :=
  (∀ p ∈ mats.zip xs, 0 ≤ p.2 ∧ p.2 ≤ p.1.stock) ∧
  ∀ c ∈ addChemEqs mats amin amax colada peso, c.sat xs

/-- The addition model's objective `sum(x[i]*cost[i])`
(`calculo_carga_eaf.py` line 51). -/
def addCost (mats : List Material) (xs : List ℚ) : ℚ :=
  ((mats.zip xs).map (fun p => p.2 * p.1.cost)).sum

/-- Helper: every second component of `mats.zip (zeroAdd mats)` is zero. -/
theorem zip_zeroAdd_snd (mats : List Material) (p : Material × ℚ)
    (hp : p ∈ mats.zip (zeroAdd mats)) : p.2 = 0 :=
  List.eq_of_mem_replicate (List.of_mem_zip hp).2

/-- Helper: the weighted chemistry sum vanishes on the all-zero addition. -/
theorem weightedChemSum_zeroAdd (mats : List Material) (sel : Material → ChemDict) (e : String) :
    weightedChemSum mats (zeroAdd mats) sel e = 0 := by
  apply List.sum_eq_zero
  intro v hv
  rcases List.mem_map.mp hv with ⟨p, hp, rfl⟩
  rw [zip_zeroAdd_snd mats p hp, zero_mul]

/-- Helper: the all-zero addition has total mass zero. -/
theorem zeroAdd_sum (mats : List Material) : (zeroAdd mats).sum = 0 := by
  simp [zeroAdd]

/-- Helper: at the all-zero addition the low mix equals the measured
chemistry value (for nonzero current weight). -/
theorem add_low_mix_zeroAdd (mats : List Material) (colada : List (String × ℚ))
    (peso : ℚ) (e : String) (hp : peso ≠ 0) :
    add_low_mix mats colada peso e (zeroAdd mats) = coladaGet colada e := by
  rw [add_low_mix, weightedChemSum_zeroAdd, zeroAdd_sum, add_zero, add_zero]
  exact mul_div_cancel_right₀ _ hp

/-- Helper: at the all-zero addition the high mix equals the measured
chemistry value (for nonzero current weight). -/
theorem add_high_mix_zeroAdd (mats : List Material) (colada : List (String × ℚ))
    (peso : ℚ) (e : String) (hp : peso ≠ 0) :
    add_high_mix mats colada peso e (zeroAdd mats) = coladaGet colada e := by
  rw [add_high_mix, weightedChemSum_zeroAdd, zeroAdd_sum, add_zero, add_zero]
  exact mul_div_cancel_right₀ _ hp

/-- Material used by the C3 counterexample: unit cost `-1`, stock `10`,
chemistry interval for `"C"` equal to `[50%, 50%]`. -/
def cexMat : Material := ⟨-1, 10, [("C", Option.some 50)], [("C", Option.some 50)]⟩

/-- Target bounds of the C3 counterexample: final `"C"` in `[40%, 60%]`. -/
def cexAmin : ChemDict := [("C", Option.some 40)]

/-- Upper target bounds of the C3 counterexample. -/
def cexAmax : ChemDict := [("C", Option.some 60)]

/-- Measured current chemistry of the C3 counterexample: `"C"` at
weight-fraction `1/2`, inside the target range. -/
def cexColada : List (String × ℚ) := [("C", 1/2)]

/-- C3 counterexample: an addition-scenario input whose measured chemistry
already satisfies every target bound at zero addition, yet the all-zero
assignment is not optimal: the addition `[10]` of the negative-cost
material is feasible and has total cost `-10 < 0`. -/
theorem addition_zero_not_optimal_cex :
    (∀ e ∈ dictKeys cexAmin,
      chemVal cexAmin e ≤ coladaGet cexColada e ∧
        coladaGet cexColada e ≤ chemVal cexAmax e) ∧
    addFeasible [cexMat] cexAmin cexAmax cexColada 100 [10] ∧
    addCost [cexMat] [10] < addCost [cexMat] (zeroAdd [cexMat]) := by
  refine ⟨?_, ⟨?_, ?_⟩, ?_⟩
  · intro e he
    simp only [cexAmin, dictKeys, List.map_cons, List.map_nil, List.mem_singleton] at he
    subst he
    constructor <;>
      norm_num [chemVal, dictGetD, normalize_chemistry_value, coladaGet,
        cexAmin, cexAmax, cexColada, List.find?]
  · intro p hp
    simp only [List.zip, List.zipWith, List.mem_singleton] at hp
    subst hp
    norm_num [cexMat]
  · intro c hc
    simp only [addChemEqs, addChemEqsFor, dictKeys, cexAmin, List.map_cons, List.map_nil,
      List.flatMap_cons, List.flatMap_nil, List.append_nil, List.mem_cons,
      List.not_mem_nil, or_false] at hc
    rcases hc with rfl | rfl <;>
      norm_num [Constr.sat, add_low_mix, add_high_mix, weightedChemSum, coladaGet,
        chemVal, dictGetD, normalize_chemistry_value, cexMat, cexAmin, cexAmax,
        cexColada, List.find?, List.zip, List.zipWith]
  · norm_num [addCost, zeroAdd, cexMat, List.zip, List.zipWith, List.replicate]

/-- C3 amended: for every addition-scenario input with positive current
weight, nonnegative stocks and nonnegative material costs, if the measured
chemistry already satisfies every target element bound at zero addition,
then the all-zero assignment is feasible, has total cost zero, and no
feasible addition has lower cost — the all-zero assignment is an optimal
solution of the addition model. -/
theorem addition_zero_optimal (mats : List Material) (amin amax : ChemDict)
    (colada : List (String × ℚ)) (peso : ℚ)
    (hpeso : 0 < peso)
    (hstock : ∀ m ∈ mats, 0 ≤ m.stock)
    (hcost : ∀ m ∈ mats, 0 ≤ m.cost)
    (hsat : ∀ e ∈ dictKeys amin,
      chemVal amin e ≤ coladaGet colada e ∧ coladaGet colada e ≤ chemVal amax e) :
    addFeasible mats amin amax colada peso (zeroAdd mats) ∧
    addCost mats (zeroAdd mats) = 0 ∧
    ∀ xs, addFeasible mats amin amax colada peso xs → 0 ≤ addCost mats xs := by
  refine ⟨⟨?_, ?_⟩, ?_, ?_⟩
  · intro p hp
    have h2 := zip_zeroAdd_snd mats p hp
    have h1 := (List.of_mem_zip hp).1
    rw [h2]
    exact ⟨le_refl 0, hstock p.1 h1⟩
  · intro c hc
    rcases List.mem_flatMap.mp hc with ⟨e, he, hce⟩
    have hbounds := hsat e he
    simp only [addChemEqsFor, List.mem_cons, List.not_mem_nil, or_false] at hce
    rcases hce with rfl | rfl
    · show add_high_mix mats colada peso e (zeroAdd mats) ≤ chemVal amax e
      rw [add_high_mix_zeroAdd mats colada peso e hpeso.ne']
      exact hbounds.2
    · show chemVal amin e ≤ add_low_mix mats colada peso e (zeroAdd mats)
      rw [add_low_mix_zeroAdd mats colada peso e hpeso.ne']
      exact hbounds.1
  · apply List.sum_eq_zero
    intro v hv
    rcases List.mem_map.mp hv with ⟨p, hp, rfl⟩
    rw [zip_zeroAdd_snd mats p hp, zero_mul]
  · intro xs hxs
    apply List.sum_nonneg
    intro v hv
    rcases List.mem_map.mp hv with ⟨p, hp, rfl⟩
    exact mul_nonneg (hxs.1 p hp).1 (hcost p.1 (List.of_mem_zip hp).1)

/-- Material used by the C3 amended witness: like the counterexample
material but with positive unit cost `5`. -/
def wMat : Material := ⟨5, 10, [("C", Option.some 50)], [("C", Option.some 50)]⟩

/-- C3 amended witness: a concrete compliant heat (weight `100`, measured
`"C"` fraction `1/2` inside the normalized target range `[2/5, 3/5]`) with
one nonnegative-cost material, at which the all-zero addition is feasible,
costs zero, and is cost-minimal. -/
theorem addition_zero_optimal_witness :
    (0 : ℚ) < 100 ∧
    (∀ m ∈ [wMat], 0 ≤ m.stock) ∧
    (∀ m ∈ [wMat], 0 ≤ m.cost) ∧
    (∀ e ∈ dictKeys cexAmin,
      chemVal cexAmin e ≤ coladaGet cexColada e ∧
        coladaGet cexColada e ≤ chemVal cexAmax e) ∧
    (addFeasible [wMat] cexAmin cexAmax cexColada 100 (zeroAdd [wMat]) ∧
    addCost [wMat] (zeroAdd [wMat]) = 0 ∧
    ∀ xs, addFeasible [wMat] cexAmin cexAmax cexColada 100 xs → 0 ≤ addCost [wMat] xs) := by
  have hpeso : (0 : ℚ) < 100 := by norm_num
  have hstock : ∀ m ∈ [wMat], 0 ≤ m.stock := by
    intro m hm
    rw [List.mem_singleton] at hm
    subst hm
    norm_num [wMat]
  have hcost : ∀ m ∈ [wMat], 0 ≤ m.cost := by
    intro m hm
    rw [List.mem_singleton] at hm
    subst hm
    norm_num [wMat]
  have hsat : ∀ e ∈ dictKeys cexAmin,
      chemVal cexAmin e ≤ coladaGet cexColada e ∧
        coladaGet cexColada e ≤ chemVal cexAmax e := by
    intro e he
    simp only [cexAmin, dictKeys, List.map_cons, List.map_nil, List.mem_singleton] at he
    subst he
    constructor <;>
      norm_num [chemVal, dictGetD, normalize_chemistry_value, coladaGet,
        cexAmin, cexAmax, cexColada, List.find?]
  exact ⟨hpeso, hstock, hcost, hsat,
    addition_zero_optimal [wMat] cexAmin cexAmax cexColada 100 hpeso hstock hcost hsat⟩

/-! ## Chemistry evaluators (claim C6) -/

/-- Embedding of `calculate_chemistry_solution` (`eaf_charge_gekko.py`
lines 204-221): per element, the same normalized weighted sums over the
same materials divided by the same `heat_weight` that
`create_optimization_model` constrains at lines 168-169. -/
def calculate_chemistry_solution (mats : List Material) (xs : List ℚ)
    (elements : List String) (hw : ℚ) : List (String × ℚ) × List (String × ℚ) :=
  (elements.map (fun e => (e, low_mix mats xs e hw)),
   elements.map (fun e => (e, high_mix mats xs e hw)))

/-- A Python value as far as `reports.calcular_quimica_solucion` needs:
numbers, strings, `None`, and string-keyed dicts. -/
inductive PyVal where
  | num (q : ℚ)
  | str (s : String)
  | pyNone
  | dict (entries : List (String × PyVal))

/-- Python subscript `d[k]`: the stored value, or a raise (`KeyError` /
`TypeError`) embedded as `Option.none`. -/
def PyVal.index : PyVal → String → Option PyVal
  | PyVal.dict es, k =>
    match es.find? (fun p => p.1 == k) with
    | Option.some p => Option.some p.2
    | Option.none => Option.none
  | _, _ => Option.none

/-- Python `d.get(k, dflt)` on a dict value; a raise on non-dicts. -/
def PyVal.getDefault : PyVal → String → PyVal → Option PyVal
  | PyVal.dict es, k, dflt =>
    match es.find? (fun p => p.1 == k) with
    | Option.some p => Option.some p.2
    | Option.none => Option.some dflt
  | _, _, _ => Option.none

/-- Python `list(d.keys())` on a dict value; a raise on non-dicts. -/
def PyVal.keysOf : PyVal → Option (List String)
  | PyVal.dict es => Option.some (es.map (fun p => p.1))
  | _ => Option.none

/-- A Python value used in arithmetic must be a number; anything else
(e.g. a stored `None` multiplied by a float) raises `TypeError`. -/
def PyVal.asNum : PyVal → Option ℚ
  | PyVal.num q => Option.some q
  | _ => Option.none

/-- One term `x[i] * materials_data[elementos[i]]['chemistry'][bound].get(e, 0)`
of the sums in `reports.calcular_quimica_solucion` (`reports.py` lines
20-27). Note the source indexes `materials_data` by the element name
`elementos[i]` and applies no percent normalization. -/
def chemTermReports (materials_data : PyVal) (elementos : List String) (x : List ℚ)
    (bound : String) (e : String) (i : Nat) : Option ℚ := do
  let xi ← x[i]?
  let name ← elementos[i]?
  let mi ← materials_data.index name
  let chem_i ← mi.index "chemistry"
  let bdict ← chem_i.index bound
  let v ← bdict.getDefault e (PyVal.num 0)
  let q ← v.asNum
  Option.some (xi * q)

/-- The sum `sum(... for i in range(len(elementos)))` of
`reports.calcular_quimica_solucion` for one element and one bound. -/
def chemSumReports (materials_data : PyVal) (elementos : List String) (x : List ℚ)
    (bound : String) (e : String) : Option ℚ := do
  let terms ← (List.range elementos.length).mapM
    (chemTermReports materials_data elementos x bound e)
  Option.some terms.sum

/-- Embedding of `calcular_quimica_solucion` (`reports.py` lines 4-28):
reads `materials_data["chemistry"]["min"]` for the element list, sums
`x[i] * materials_data[elementos[i]]['chemistry'][bound].get(e, 0)` over
`i in range(len(elementos))`, and divides by `peso = sum(x)`. Every raise
of the Python code (`KeyError`, `TypeError`, `IndexError`,
`ZeroDivisionError`) is `Option.none`. -/
def calcular_quimica_solucion (materials_data : PyVal) (x : List ℚ) :
    Option (List (String × ℚ) × List (String × ℚ)) := do
  let chem ← materials_data.index "chemistry"
  let charge_min ← chem.index "min"
  let elementos ← charge_min.keysOf
  let peso := x.sum
  let mins ← elementos.mapM (fun e => do
    let s ← chemSumReports materials_data elementos x "min" e
    if peso = 0 then Option.none else Option.some (e, s / peso))
  let maxs ← elementos.mapM (fun e => do
    let s ← chemSumReports materials_data elementos x "max" e
    if peso = 0 then Option.none else Option.some (e, s / peso))
  Option.some (mins, maxs)

/-- A well-formed one-material catalog in the configuration's shape, as
`reports.calcular_quimica_solucion` receives it from `main`. -/
def cataPy : PyVal :=
  PyVal.dict [("A", PyVal.dict
    [("cost", PyVal.num 1), ("stock", PyVal.num 100),
     ("min", PyVal.num 0), ("max", PyVal.num 1),
     ("chemistry", PyVal.dict
       [("min", PyVal.dict [("C", PyVal.num 1)]),
        ("max", PyVal.dict [("C", PyVal.num 2)])])])]

/-- The same catalog entry in the builder's data model. -/
def cataMat : Material := ⟨1, 100, [("C", Option.some 1)], [("C", Option.some 2)]⟩

/-- C6: at a well-formed one-material catalog with assignment `[10]` and
heat weight `10`, the `reports.py` compliance evaluator produces no value
at all (its first lookup `materials_data["chemistry"]` raises `KeyError`
on any catalog keyed by material names), while the builder's constrained
`low_mix`/`high_mix` for element `"C"` are the well-defined values `1/100`
and `1/50`, which the `eaf_charge_gekko.py` evaluator reproduces exactly —
so the `reports.py` evaluator does not compute the quantities the builder
used, contradicting its own docstring. -/
theorem reports_chem_evaluator_bug :
    calcular_quimica_solucion cataPy [10] = Option.none ∧
    low_mix [cataMat] [10] "C" 10 = 1/100 ∧
    high_mix [cataMat] [10] "C" 10 = 1/50 ∧
    calculate_chemistry_solution [cataMat] [10] ["C"] 10 =
      ([("C", low_mix [cataMat] [10] "C" 10)], [("C", high_mix [cataMat] [10] "C" 10)]) := by
  refine ⟨rfl, ?_, ?_, rfl⟩
  · norm_num [low_mix, weightedChemSum, chemVal, dictGetD, normalize_chemistry_value,
      cataMat, List.find?, List.zip, List.zipWith]
  · norm_num [high_mix, weightedChemSum, chemVal, dictGetD, normalize_chemistry_value,
      cataMat, List.find?, List.zip, List.zipWith]
